import Mathlib

/-!
# idena-desktop: profile forms and the mining activation controller

A shallow embedding of the event handlers and render decisions of
`src/renderer/screens/profile/components.js` and of the status components of
`src/renderer/shared/components/sidebar.js`.

* JavaScript values are the inductive `JsVal`; numbers are the integers the
  program handles (epochs), `undefined` plays the role of `NaN` in comparisons.
* An event handler is a function from its environment (the collaborators it
  calls, given by their settled outcome) to a `Run`: the ordered list of
  effects it performs and how its promise settles.
* A component is a function from its props to a record of what it renders.
-/

namespace Idena

/-! ## JavaScript values -/

/-- JavaScript values that reach the profile forms: primitives and plain records. -/
inductive JsVal where
  | undefined : JsVal
  | null : JsVal
  | bool (b : Bool) : JsVal
  | num (n : Int) : JsVal
  | str (s : String) : JsVal
  | obj (props : List (String × JsVal)) : JsVal

namespace JsVal

/-- Truthiness used by `if`, `?:`, `&&`, `||` and `!`. -/
def truthy : JsVal → Bool
  | undefined => false
  | null => false
  | bool b => b
  | num n => n != 0
  | str s => s != ""
  | obj _ => true

/-- The test `v == null`: `v` is `null` or `undefined`. -/
def isNullish : JsVal → Bool
  | undefined => true
  | null => true
  | _ => false

/-- The test `typeof v === 'string'`. -/
def isString : JsVal → Bool
  | str _ => true
  | _ => false

/-- Lookup of a key in the property list of a record. -/
def lookup (k : String) : List (String × JsVal) → JsVal
  | [] => undefined
  | (k1, v) :: rest => if k1 = k then v else lookup k rest

/-- Property read `v.k` on a value that is not nullish, for the data keys the
forms read (`message`, `result`, `error`): a record yields its entry, a
primitive has no such property. -/
def get (v : JsVal) (k : String) : JsVal :=
  match v with
  | obj props => lookup k props
  | _ => undefined

/-- Optional chaining `v?.k`. -/
def optGet (v : JsVal) (k : String) : JsVal :=
  if v.isNullish then undefined else v.get k

/-- Nullish coalescing `a ?? b`. -/
def orElse (a b : JsVal) : JsVal :=
  if a.isNullish then b else a

/-- Logical or `a || b`, which yields one of its operands. -/
def or (a b : JsVal) : JsVal :=
  if a.truthy then a else b

/-- Strict inequality `s !== v` whose left operand is a string. -/
def strictNeStr (s : String) : JsVal → Bool
  | str a => s != a
  | _ => true

/-- The comparison `Object.is a b` on primitives; two records are taken to be
distinct references. -/
def objectIs : JsVal → JsVal → Bool
  | undefined, undefined => true
  | null, null => true
  | bool a, bool b => a == b
  | num a, num b => a == b
  | str a, str b => a == b
  | _, _ => false

end JsVal

/-- Result of `new Error(msg)`, as far as the forms read it. -/
def mkError (msg : String) : JsVal :=
  .obj [("message", .str msg)]

/-- The `TypeError` raised by the engine when a property of `undefined` or
`null` is read or destructured, or when a missing method is called. -/
def typeError (what : String) : JsVal :=
  .obj [("name", .str "TypeError"), ("message", .str what)]

/-! ## Strings -/

/-- Whether `p` is an initial segment of `s`. -/
def startsWith : List Char → List Char → Bool
  | [], _ => true
  | _ :: _, [] => false
  | a :: p, b :: s => a == b && startsWith p s

/-- Substring test on character lists. -/
def includesChars (needle : List Char) : List Char → Bool
  | [] => needle.isEmpty
  | c :: s => startsWith needle (c :: s) || includesChars needle s

/-- The method `s.includes(needle)` of a string. -/
def includes (s needle : String) : Bool :=
  includesChars needle.data s.data

/-- White space and line terminators removed by `String.prototype.trim`. -/
def isJsSpace (c : Char) : Bool :=
  let n := c.toNat
  n = 9 || n = 10 || n = 11 || n = 12 || n = 13 || n = 32 || n = 160 ||
  n = 0x1680 || (0x2000 ≤ n && n ≤ 0x200A) || n = 0x2028 || n = 0x2029 ||
  n = 0x202F || n = 0x205F || n = 0x3000 || n = 0xFEFF

/-- The method `s.trim()`. -/
def jsTrim (s : String) : String :=
  ⟨((s.data.dropWhile isJsSpace).reverse.dropWhile isJsSpace).reverse⟩

/-! ## The mining activation controller

The statechart `activateMiningMachine` is imported from `./machines`; its
transition table is the one given in the design document. The `onError`
action and the events sent to it are those of `ActivateMiningForm`. -/

/-- Values of `NodeType` used by the mining forms. -/
inductive NodeType where
  | Miner
  | Delegator
  deriving DecidableEq, Repr

/-- Modelled from the spec: the states of `activateMiningMachine` (the module
`./machines` is not part of the sources): `idle`, `showing`, `showing.mining`. -/
inductive MiningState where
  | idle
  | showing
  | showingMining
  deriving DecidableEq, Repr

/-- Context handed to `useMachine` by `ActivateMiningForm`, with the `mode`
read back from `current.context`. -/
structure MiningContext where
  isOnline : JsVal
  delegatee : JsVal
  delegationEpoch : Option Int
  mode : NodeType

/-- Events accepted by the controller: the five sent by `ActivateMiningForm`
and the two completions of the invoked submission. -/
inductive MiningEvent where
  | SHOW
  | CANCEL
  | CHANGE_MODE (mode : NodeType)
  | ACTIVATE (delegatee : JsVal)
  | DEACTIVATE (mode : NodeType)
  | submitDone
  | submitFailed (data : JsVal)

/-- Argument of `toast` in the `onError` action: the status and the props of
the rendered `Toast`. -/
structure ToastOptions where
  status : String
  title : JsVal
  toastStatus : String

/-- What the controller does to its environment. -/
inductive MiningEffect where
  | submitActivate (delegatee : JsVal)
  | submitDeactivate (mode : NodeType)
  | toast (opts : ToastOptions)
  | uncaught (err : JsVal)

/-- The `onError` action of `ActivateMiningForm`:
`(_, {data: {message}}) => toast({status: 'error', render: () => <Toast title={message} status="error" />})`.
Destructuring `message` out of a nullish `data` raises a `TypeError`. -/
def onError (data : JsVal) : Except JsVal ToastOptions :=
  if data.isNullish then
    .error (typeError "Cannot destructure property 'message' of 'undefined' as it is undefined.")
  else
    .ok { status := "error", title := data.get "message", toastStatus := "error" }

/-- Effects of running the `onError` action on the data of a failure event. -/
def onErrorEffects (data : JsVal) : List MiningEffect :=
  match onError data with
  | .ok opts => [.toast opts]
  | .error err => [.uncaught err]

/-- Modelled from the spec: the mode the drawer opens with, "defaulted from
current delegation status" (the module `./machines` is not part of the sources). -/
def defaultMode (ctx : MiningContext) : NodeType :=
  if ctx.delegatee.isString then .Delegator else .Miner

/-- Configuration of the controller: state, context, and the effects of the
last step. -/
structure MiningConfig where
  state : MiningState
  context : MiningContext
  effects : List MiningEffect

/-- Modelled from the spec: the transition table of `activateMiningMachine`
(the module `./machines` is not part of the sources). An event with no row
for the current state leaves the configuration unchanged. -/
def miningStep (s : MiningState) (ctx : MiningContext) (ev : MiningEvent) : MiningConfig :=
  match s, ev with
  | .idle, .SHOW => ⟨.showing, { ctx with mode := defaultMode ctx }, []⟩
  | .showing, .CHANGE_MODE m => ⟨.showing, { ctx with mode := m }, []⟩
  | .showing, .ACTIVATE d => ⟨.showingMining, ctx, [.submitActivate d]⟩
  | .showing, .DEACTIVATE m => ⟨.showingMining, ctx, [.submitDeactivate m]⟩
  | .showingMining, .submitDone => ⟨.idle, ctx, []⟩
  | .showingMining, .submitFailed data => ⟨.showing, ctx, onErrorEffects data⟩
  | .showing, .CANCEL => ⟨.idle, { ctx with mode := defaultMode ctx }, []⟩
  | .showingMining, .CANCEL => ⟨.idle, { ctx with mode := defaultMode ctx }, []⟩
  | s, _ => ⟨s, ctx, []⟩

/-- Run a sequence of events, accumulating the effects in order. -/
def miningRun (s : MiningState) (ctx : MiningContext) : List MiningEvent → MiningConfig
  | [] => ⟨s, ctx, []⟩
  | ev :: rest =>
    let c := miningStep s ctx ev
    let r := miningRun c.state c.context rest
    ⟨r.state, r.context, c.effects ++ r.effects⟩

/-- The error notifications among a list of effects. -/
def toasts : List MiningEffect → List ToastOptions
  | [] => []
  | .toast o :: rest => o :: toasts rest
  | _ :: rest => toasts rest

/-- Modelled from the spec: `eitherState(current, 'showing')` (the module
`shared/utils/utils` is not part of the sources); `showing.mining` is a
substate of `showing`, in which the drawer remains open. -/
def matchesShowing : MiningState → Bool
  | .idle => false
  | .showing => true
  | .showingMining => true

/-- Modelled from the spec: `eitherState(current, 'showing.mining')` (the
module `shared/utils/utils` is not part of the sources). -/
def matchesMining : MiningState → Bool
  | .showingMining => true
  | _ => false

/-! ## `ActivateMiningForm` and its drawers -/

/-- Props of `ActivateMiningForm`. -/
structure MiningFormProps where
  isOnline : JsVal
  delegatee : JsVal
  delegationEpoch : Option Int

/-- Props handed to `ActivateMiningSwitch`. -/
structure SwitchProps where
  isOnline : JsVal
  isDelegator : Bool

/-- Props handed to `DeactivateMiningDrawer`. -/
structure DeactivateDrawerProps where
  delegatee : JsVal
  canUndelegate : JsVal
  isOpen : Bool
  isCloseable : Bool
  isLoading : Bool

/-- Props handed to `ActivateMiningDrawer`. -/
structure ActivateDrawerProps where
  mode : NodeType
  isOpen : Bool
  isCloseable : Bool
  isLoading : Bool

/-- The drawer element chosen by `ActivateMiningForm`. -/
inductive DrawerElement where
  | deactivate (props : DeactivateDrawerProps)
  | activate (props : ActivateDrawerProps)

/-- What `ActivateMiningForm` renders: the switch and one drawer. -/
structure MiningFormView where
  switch : SwitchProps
  drawer : DrawerElement

/-- The comparison `epoch?.epoch > delegationEpoch`: false as soon as one
side is `undefined`. -/
def canUndelegate (epoch : Option Int) (delegationEpoch : Option Int) : Bool :=
  match epoch, delegationEpoch with
  | some e, some d => decide (e > d)
  | _, _ => false

/-- The render function of `ActivateMiningForm`; `epoch` is `epoch?.epoch` of
`useEpochState()`, `current` and `mode` come from `useMachine`. -/
def ActivateMiningForm (props : MiningFormProps) (epoch : Option Int)
    (current : MiningState) (mode : NodeType) : MiningFormView :=
  let isDelegator := props.delegatee.isString
  { switch := { isOnline := props.isOnline.or (.bool isDelegator), isDelegator := isDelegator }
    drawer :=
      if (props.isOnline.or (.bool isDelegator)).truthy then
        .deactivate
          { delegatee := props.delegatee
            canUndelegate := .bool (canUndelegate epoch props.delegationEpoch)
            isOpen := matchesShowing current
            isCloseable := false
            isLoading := matchesMining current }
      else
        .activate
          { mode := mode
            isOpen := matchesShowing current
            isCloseable := false
            isLoading := matchesMining current } }

/-- Event sent by the `onShow` handler of the switch. -/
def onShowEvent : MiningEvent := .SHOW

/-- Event sent by `onDeactivate`: the mode is `Delegator` when `delegatee`
is a string and `Miner` otherwise. -/
def onDeactivateEvent (props : MiningFormProps) : MiningEvent :=
  .DEACTIVATE (if props.delegatee.isString then .Delegator else .Miner)

/-- Event sent by `onChangeMode`. -/
def onChangeModeEvent (value : NodeType) : MiningEvent := .CHANGE_MODE value

/-- Event sent by `onActivate`. -/
def onActivateEvent (delegatee : JsVal) : MiningEvent := .ACTIVATE delegatee

/-- Event sent by `onClose` of either drawer. -/
def onCloseEvent : MiningEvent := .CANCEL

/-- Whether a dependency of the effect `[isOnline, delegatee, send]` differs
from the previous render (`send` is stable). -/
def depsChanged (prev cur : MiningFormProps) : Bool :=
  !(prev.isOnline.objectIs cur.isOnline) || !(prev.delegatee.objectIs cur.delegatee)

/-- Events sent by `React.useEffect(() => send('CANCEL'), [isOnline, delegatee, send])`
after a render: on mount (`prev = none`) and whenever a dependency changed. -/
def effectEvents (prev : Option MiningFormProps) (cur : MiningFormProps) : List MiningEvent :=
  match prev with
  | none => [.CANCEL]
  | some p => if depsChanged p cur then [.CANCEL] else []

/-- What `DeactivateMiningDrawer` renders, with `t` the translation function. -/
structure DeactivateDrawerView where
  heading : String
  text : String
  addressField : Option JsVal
  banner : Option String
  submitDisabled : Bool
  submitLoading : Bool

/-- The render function of `DeactivateMiningDrawer`. -/
def DeactivateMiningDrawer (t : String → String) (isLoading : Bool)
    (delegatee : JsVal) (canUndelegate : JsVal) : DeactivateDrawerView :=
  let isDelegator := delegatee.isString
  { heading :=
      if isDelegator then t "Deactivate delegation status" else t "Deactivate mining status"
    text :=
      if isDelegator then t "Submit the form to deactivate your delegation status."
      else t "Submit the form to deactivate your mining status. You can activate it again afterwards."
    addressField := if isDelegator then some delegatee else none
    banner :=
      if isDelegator && !canUndelegate.truthy then
        some (t "You can disable delegation at the next epoch only")
      else none
    submitDisabled := isDelegator && !canUndelegate.truthy
    submitLoading := isLoading }

/-- The deactivate drawer as `ActivateMiningForm` renders it, when it does. -/
def renderedDeactivateDrawer (t : String → String) (props : MiningFormProps)
    (epoch : Option Int) (current : MiningState) (mode : NodeType) :
    Option DeactivateDrawerView :=
  match (ActivateMiningForm props epoch current mode).drawer with
  | .deactivate p => some (DeactivateMiningDrawer t p.isLoading p.delegatee p.canUndelegate)
  | .activate _ => none

/-! ## Submit handlers -/

/-- How an awaited call settles. -/
inductive Settled where
  | returns (value : JsVal)
  | throws (err : JsVal)

/-- One run of an async handler: the effects performed, in order, and the
value its promise rejects with, if any. -/
structure Run (ε : Type) where
  trace : List ε
  thrown : Option JsVal

/-- Effects of the submit handler of `ActivateInviteForm`. -/
inductive InviteEffect where
  | preventDefault
  | activateInvite (code : JsVal)
  | failToast (payload : JsVal)

/-- Collaborators of `ActivateInviteForm`: the translation function and
`activateInvite`, which resolves (`none`) or rejects with a value. -/
structure InviteEnv where
  t : String → String
  activateInvite : JsVal → Option JsVal

/-- The argument `code?.trim()`. -/
def trimmedCode : Option String → JsVal
  | none => .undefined
  | some c => .str (jsTrim c)

/-- The clause `catch ({message}) { failToast(...) }` of `ActivateInviteForm`,
run on the caught value. -/
def inviteCatch (t : String → String) (err : JsVal) : Run InviteEffect :=
  if err.isNullish then
    ⟨[], some (typeError "Cannot destructure property 'message' of 'undefined' as it is undefined.")⟩
  else
    match err.get "message" with
    | .str message =>
      if includes message "missing" then
        ⟨[.failToast (.str (t "Invitation code is not valid"))], none⟩
      else if includes message "validation ceremony" then
        ⟨[.failToast (.str (t "Can not activate invitation since the validation is running"))], none⟩
      else
        ⟨[.failToast (.str message)], none⟩
    | .undefined => ⟨[], some (typeError "Cannot read properties of undefined (reading 'includes')")⟩
    | .null => ⟨[], some (typeError "Cannot read properties of null (reading 'includes')")⟩
    | _ => ⟨[], some (typeError "message.includes is not a function")⟩

/-- The `onSubmit` handler of `ActivateInviteForm`, for the current `code`. -/
def activateInviteSubmit (env : InviteEnv) (code : Option String) : Run InviteEffect :=
  let arg := trimmedCode code
  match env.activateInvite arg with
  | none => ⟨[.preventDefault, .activateInvite arg], none⟩
  | some err =>
    let r := inviteCatch env.t err
    ⟨[.preventDefault, .activateInvite arg] ++ r.trace, r.thrown⟩

/-- The payloads of the failure notifications of a run of `ActivateInviteForm`. -/
def inviteNotifications : List InviteEffect → List JsVal
  | [] => []
  | .failToast p :: rest => p :: inviteNotifications rest
  | _ :: rest => inviteNotifications rest

/-- Effects of the submit handler of `KillForm`. -/
inductive KillEffect where
  | preventDefault
  | setSubmitting (value : Bool)
  | killMe (arg : JsVal)
  | toastFail (payload : JsVal)
  | toastSuccess (payload : JsVal)
  | onSuccess (result : JsVal)
  | onFail (err : JsVal)

/-- Collaborators of `KillForm`: the translation function, the identity
address, `killMe` by the way it settles, and the optional callbacks
`onSuccess` and `onFail`, each returning (`none`) or throwing a value. -/
structure KillEnv where
  t : String → String
  address : JsVal
  killMe : JsVal → Settled
  onSuccess : Option (JsVal → Option JsVal)
  onFail : Option (JsVal → Option JsVal)

/-- The `try` block of the submit handler of `KillForm`, for the entered
address `to` (here `toValue`): the effects performed and the value thrown, if any. -/
def killTry (env : KillEnv) (toValue : String) : Run KillEffect :=
  if JsVal.strictNeStr toValue env.address then
    ⟨[], some (mkError (env.t "You must specify your own identity address"))⟩
  else
    let arg := JsVal.obj [("to", .str toValue)]
    match env.killMe arg with
    | .throws err => ⟨[.setSubmitting true, .killMe arg], some err⟩
    | .returns v =>
      if v.isNullish then
        ⟨[.setSubmitting true, .killMe arg],
          some (typeError "Cannot destructure property 'result' of '(intermediate value)' as it is undefined.")⟩
      else
        let result := v.get "result"
        let error := v.get "error"
        if error.truthy then
          ⟨[.setSubmitting true, .killMe arg, .setSubmitting false,
            .toastFail (.obj [("title", .str (env.t "Error while sending transaction")),
                              ("description", error.get "message")])], none⟩
        else
          match env.onSuccess with
          | none =>
            ⟨[.setSubmitting true, .killMe arg, .setSubmitting false,
              .toastSuccess (.str (env.t "Transaction sent"))], none⟩
          | some f =>
            ⟨[.setSubmitting true, .killMe arg, .setSubmitting false,
              .toastSuccess (.str (env.t "Transaction sent")), .onSuccess result], f result⟩

/-- The text `error?.message ?? t('Something went wrong')` shown by the
`catch` clause of `KillForm`. -/
def killFailText (t : String → String) (error : JsVal) : JsVal :=
  (error.optGet "message").orElse (.str (t "Something went wrong"))

/-- The `catch (error)` clause of `KillForm`, run on the caught value. -/
def killCatch (env : KillEnv) (error : JsVal) : Run KillEffect :=
  match env.onFail with
  | none => ⟨[.setSubmitting false, .toastFail (killFailText env.t error)], none⟩
  | some f =>
    ⟨[.setSubmitting false, .toastFail (killFailText env.t error), .onFail error], f error⟩

/-- The `onSubmit` handler of `KillForm`, for the entered address
`to` (here `toValue`). -/
def killSubmit (env : KillEnv) (toValue : String) : Run KillEffect :=
  let r := killTry env toValue
  match r.thrown with
  | none => ⟨.preventDefault :: r.trace, none⟩
  | some error =>
    let c := killCatch env error
    ⟨.preventDefault :: (r.trace ++ c.trace), c.thrown⟩

/-- The value of the `submitting` state after a list of effects. -/
def submittingAfter (init : Bool) : List KillEffect → Bool
  | [] => init
  | .setSubmitting b :: rest => submittingAfter b rest
  | _ :: rest => submittingAfter init rest

/-- The payloads of the failure notifications of a run of `KillForm`. -/
def killFailures : List KillEffect → List JsVal
  | [] => []
  | .toastFail p :: rest => p :: killFailures rest
  | _ :: rest => killFailures rest

/-- The arguments of the calls to `killMe` in a run of `KillForm`. -/
def killMeCalls : List KillEffect → List JsVal
  | [] => []
  | .killMe a :: rest => a :: killMeCalls rest
  | _ :: rest => killMeCalls rest

/-! ## Sidebar: `NodeStatus` and `CurrentTask` -/

/-- What `NodeStatus` computes before rendering: the names of the theme
colours `bg` and `color`, and the label `text`. -/
structure NodeStatusView where
  bg : String
  color : String
  text : String
  deriving DecidableEq, Repr

/-- The status computation of `NodeStatus` from the chain state. -/
def NodeStatus (loading offline syncing : JsVal) : NodeStatusView :=
  if !loading.truthy then
    if offline.truthy then
      { bg := "danger02", color := "danger", text := "Offline" }
    else
      { bg := if syncing.truthy then "warning02" else "success02"
        color := if syncing.truthy then "warning" else "success"
        text := if syncing.truthy then "Synchronizing" else "Synchronized" }
  else
    { bg := "white01", color := "muted", text := "Getting node status..." }

/-- The members of `IdentityStatus` (`shared/types`) named by the sidebar,
taken as distinct non-empty strings; `other` is any other truthy state. -/
inductive IdentityStatus where
  | Undefined
  | Invite
  | Candidate
  | Newbie
  | Verified
  | Suspended
  | Zombie
  | Human
  | other
  deriving DecidableEq, Repr

/-- The members of `EpochPeriod` (`shared/types`) named by the sidebar, taken
as distinct non-empty strings; `other` is any other truthy period. -/
inductive EpochPeriod where
  | None
  | ShortSession
  | LongSession
  | FlipLottery
  | AfterLongSession
  | other
  deriving DecidableEq, Repr

/-- The fields of the identity snapshot read by `CurrentTask`; a falsy
`state` is `none`, `flips` is an array or absent, the flip numbers are
integers. -/
structure Identity where
  state : Option IdentityStatus
  flips : Option (List JsVal)
  requiredFlips : Int
  availableFlips : Int
  canActivateInvite : JsVal

/-- The stored validation state as `CurrentTask` destructures it: `done` and
`context.epoch`. -/
structure ValidationState where
  done : JsVal
  epoch : JsVal

/-- A call `t(key)` or `t(key, {count})` of the translation function. -/
structure Translated where
  key : String
  count : Option Int
  deriving DecidableEq, Repr

/-- What `CurrentTask` returns: `null`, a string literal, a translated text,
or a `Link` around a translated text. -/
inductive TaskNode where
  | null
  | literal (s : String)
  | text (msg : Translated)
  | link (href : String) (msg : Translated)
  deriving DecidableEq, Repr

/-- The test `true === v` of a `switch (true)` case. -/
def JsVal.isTrue : JsVal → Bool
  | .bool true => true
  | _ => false

/-- Strict equality `a === b` on primitives; two records are taken to be
distinct references. -/
def JsVal.strictEq : JsVal → JsVal → Bool
  | .undefined, .undefined => true
  | .null, .null => true
  | .bool a, .bool b => a == b
  | .num a, .num b => a == b
  | .str a, .str b => a == b
  | _, _ => false

/-- The function `CurrentTask({epoch, period, identity})`; `validationState`
is the value of `loadValidationState()`, absent when falsy. -/
def CurrentTask (epoch : JsVal) (period : Option EpochPeriod) (identity : Identity)
    (validationState : Option ValidationState) : TaskNode :=
  match period, identity.state with
  | none, _ => .null
  | some _, none => .null
  | some .None, some status =>
    if identity.canActivateInvite.isTrue then
      .link "/profile" ⟨"Activate invite", none⟩
    else if [IdentityStatus.Human, .Verified, .Newbie].contains status then
      let publishedFlipsNumber : Int := ((identity.flips.getD []).length : Nat)
      let remainingRequiredFlipsNumber := identity.requiredFlips - publishedFlipsNumber
      let optionalFlipsNumber :=
        identity.availableFlips - max identity.requiredFlips publishedFlipsNumber
      if remainingRequiredFlipsNumber > 0 then
        .link "/flips/list"
          ⟨"Create \x7b\x7bcount\x7d\x7d required flips", some remainingRequiredFlipsNumber⟩
      else if optionalFlipsNumber > 0 then
        .text ⟨"Wait for validation or create \x7b\x7bcount\x7d\x7d optional flips",
          some optionalFlipsNumber⟩
      else
        .text ⟨"Wait for validation", none⟩
    else if [IdentityStatus.Candidate, .Suspended, .Zombie].contains status then
      .text ⟨"Wait for validation", none⟩
    else
      .literal "..."
  | some .ShortSession, some status | some .LongSession, some status =>
    if [IdentityStatus.Undefined, .Invite].contains status then
      .text ⟨"Can not start validation session because you did not activate invite", none⟩
    else if [IdentityStatus.Candidate, .Suspended, .Zombie, .Newbie, .Verified,
        .Human].contains status then
      match validationState with
      | some v =>
        let isValidated := [IdentityStatus.Newbie, .Verified, .Human].contains status
        if v.epoch.strictEq epoch then
          if v.done.truthy then .text ⟨"Wait for validation end", none⟩
          else .link "/validation" ⟨"Validate", none⟩
        else if isValidated then
          .text ⟨"Can not start validation session because you did not submit flips.", none⟩
        else
          .literal "Starting your validation session..."
      | none => .literal "..."
    else
      .literal "..."
  | some .FlipLottery, some _ => .text ⟨"Shuffling flips...", none⟩
  | some .AfterLongSession, some _ => .text ⟨"Wait for validation end", none⟩
  | some .other, some _ => .literal "..."

/-- The count handed to the translation function by a task, if any. -/
def TaskNode.count : TaskNode → Option Int
  | .text msg => msg.count
  | .link _ msg => msg.count
  | _ => none

/-! ## Sidebar: `Version` -/

/-- The fields of the auto-update state read by `Version`. -/
structure AutoUpdateState where
  nodeCurrentVersion : JsVal
  nodeUpdating : JsVal
  canUpdateClient : JsVal
  canUpdateNode : JsVal
  nodeProgress : JsVal
  uiRemoteVersion : JsVal
  nodeRemoteVersion : JsVal

/-- The handlers of `useAutoUpdateDispatch()` wired to the buttons. -/
inductive UpdateAction where
  | updateClient
  | updateNode
  deriving DecidableEq, Repr

/-- Props of a rendered `UpdateButton`. -/
structure UpdateButtonProps where
  text : String
  version : JsVal
  onClick : UpdateAction

/-- What `Version` renders: the node version line, whether the line
`Updating Node...` is shown, and the two optional update buttons. -/
structure VersionView where
  nodeVersion : JsVal
  updatingNode : Bool
  clientButton : Option UpdateButtonProps
  nodeButton : Option UpdateButtonProps

/-- The render function of `Version` on the auto-update state. -/
def Version (autoUpdate : AutoUpdateState) : VersionView :=
  { nodeVersion := autoUpdate.nodeCurrentVersion
    updatingNode := autoUpdate.nodeUpdating.truthy
    clientButton :=
      if autoUpdate.canUpdateClient.truthy then
        some { text := "Update Client Version", version := autoUpdate.uiRemoteVersion,
               onClick := .updateClient }
      else none
    nodeButton :=
      if !autoUpdate.canUpdateClient.truthy && autoUpdate.canUpdateNode.truthy &&
          (!autoUpdate.nodeProgress.truthy ||
            (autoUpdate.nodeProgress.get "percentage").strictEq (.num 100)) then
        some { text := "Update Node Version", version := autoUpdate.nodeRemoteVersion,
               onClick := .updateNode }
      else none }

/-! ## Observers used in the statements -/

/-- Whether an event asks for a submission: ACTIVATE or DEACTIVATE. -/
def isSubmission : MiningEvent → Bool
  | .ACTIVATE _ => true
  | .DEACTIVATE _ => true
  | _ => false

/-- The submissions started among a list of effects. -/
def submissions : List MiningEffect → List MiningEffect
  | [] => []
  | .submitActivate d :: rest => .submitActivate d :: submissions rest
  | .submitDeactivate m :: rest => .submitDeactivate m :: submissions rest
  | _ :: rest => submissions rest

/-- Whether an event is a completion of the submission, success or failure. -/
def isCompletion : MiningEvent → Bool
  | .submitDone => true
  | .submitFailed _ => true
  | _ => false

/-- The number of submissions the controller holds in flight: one in
`showing.mining`, none elsewhere. -/
def inFlight : MiningState → Nat
  | .showingMining => 1
  | _ => 0

/-- Whether an event ends a stay in `showing.mining`: a completion of the
submission or a CANCEL. -/
def leavesMining : MiningEvent → Bool
  | .CANCEL => true
  | .submitDone => true
  | .submitFailed _ => true
  | _ => false

/-- The prop `isOpen` of the rendered drawer. -/
def DrawerElement.isOpen : DrawerElement → Bool
  | .deactivate p => p.isOpen
  | .activate p => p.isOpen

/-- The prop `isLoading` of the rendered drawer. -/
def DrawerElement.isLoading : DrawerElement → Bool
  | .deactivate p => p.isLoading
  | .activate p => p.isLoading

/-- The prop `isCloseable` of the rendered drawer. -/
def DrawerElement.isCloseable : DrawerElement → Bool
  | .deactivate p => p.isCloseable
  | .activate p => p.isCloseable

/-- The notifications of a run of `KillForm`, failures and successes alike. -/
def killNotifications : List KillEffect → List KillEffect
  | [] => []
  | .toastFail p :: rest => .toastFail p :: killNotifications rest
  | .toastSuccess p :: rest => .toastSuccess p :: killNotifications rest
  | _ :: rest => killNotifications rest

/-- The arguments of the calls to `onSuccess` in a run of `KillForm`. -/
def onSuccessCalls : List KillEffect → List JsVal
  | [] => []
  | .onSuccess r :: rest => r :: onSuccessCalls rest
  | _ :: rest => onSuccessCalls rest

/-- The arguments of the calls to `onFail` in a run of `KillForm`. -/
def onFailCalls : List KillEffect → List JsVal
  | [] => []
  | .onFail e :: rest => e :: onFailCalls rest
  | _ :: rest => onFailCalls rest

/-- Whether the drawer element is a `DeactivateMiningDrawer`. -/
def rendersDeactivate (v : MiningFormView) : Bool :=
  match v.drawer with
  | .deactivate _ => true
  | .activate _ => false

/-- Whether the drawer element is an `ActivateMiningDrawer`. -/
def rendersActivate (v : MiningFormView) : Bool :=
  match v.drawer with
  | .deactivate _ => false
  | .activate _ => true

/-- A `KillForm` environment used to exercise the handler: own address
`0xabc`, `killMe` settling as given, no callbacks. -/
def sampleKillEnv (outcome : Settled) : KillEnv :=
  { t := id, address := .str "0xabc", killMe := fun _ => outcome,
    onSuccess := none, onFail := none }

/-- An `ActivateInviteForm` environment whose `activateInvite` rejects with
the given value. -/
def sampleInviteEnv (err : JsVal) : InviteEnv :=
  { t := id, activateInvite := fun _ => some err }

/-- A `KillForm` environment with own address `0xabc` and both callbacks
present: `onSuccess` settles as given, `onFail` returns. -/
def sampleKillEnvWithCallbacks (outcome : Settled) (onSuccessThrows : Option JsVal) : KillEnv :=
  { t := id, address := .str "0xabc", killMe := fun _ => outcome,
    onSuccess := some (fun _ => onSuccessThrows), onFail := some (fun _ => none) }

/-! ## Helper lemmas -/

theorem truthy_or_bool (a : JsVal) (b : Bool) :
    (a.or (.bool b)).truthy = (a.truthy || b) := by
  unfold JsVal.or
  cases h : a.truthy
  · simp [JsVal.truthy]
  · simp [h]

theorem isString_str (s : String) : (JsVal.str s).isString = true := rfl

theorem truthy_bool (b : Bool) : (JsVal.bool b).truthy = b := rfl

theorem activateMiningForm_drawer (props : MiningFormProps) (epoch : Option Int)
    (current : MiningState) (mode : NodeType) :
    (ActivateMiningForm props epoch current mode).drawer =
      if (props.isOnline.truthy || props.delegatee.isString) = true then
        .deactivate
          { delegatee := props.delegatee
            canUndelegate := .bool (canUndelegate epoch props.delegationEpoch)
            isOpen := matchesShowing current
            isCloseable := false
            isLoading := matchesMining current }
      else
        .activate
          { mode := mode
            isOpen := matchesShowing current
            isCloseable := false
            isLoading := matchesMining current } := by
  simp only [ActivateMiningForm, truthy_or_bool]

theorem submittingAfter_append (b : Bool) (l r : List KillEffect) :
    submittingAfter b (l ++ r) = submittingAfter (submittingAfter b l) r := by
  induction l generalizing b with
  | nil => rfl
  | cons e l ih => cases e <;> simp [submittingAfter, ih]

theorem killFailures_append (l r : List KillEffect) :
    killFailures (l ++ r) = killFailures l ++ killFailures r := by
  induction l with
  | nil => rfl
  | cons e l ih => cases e <;> simp [killFailures, ih]

theorem killCatch_trace (env : KillEnv) (error : JsVal) :
    (killCatch env error).trace =
      [.setSubmitting false, .toastFail (killFailText env.t error)] ++
        (match env.onFail with
         | none => []
         | some _ => [.onFail error]) := by
  unfold killCatch
  cases env.onFail <;> rfl

theorem killCatch_thrown (env : KillEnv) (error : JsVal) :
    (killCatch env error).thrown = env.onFail.bind (fun f => f error) := by
  unfold killCatch
  cases env.onFail <;> rfl

theorem killSubmit_of_thrown (env : KillEnv) (toValue : String) (err : JsVal)
    (h : (killTry env toValue).thrown = some err) :
    killSubmit env toValue =
      ⟨.preventDefault :: ((killTry env toValue).trace ++ (killCatch env err).trace),
        (killCatch env err).thrown⟩ := by
  simp [killSubmit, h]

theorem killTry_mismatch (env : KillEnv) (toValue : String)
    (h : JsVal.strictNeStr toValue env.address = true) :
    killTry env toValue =
      ⟨[], some (mkError (env.t "You must specify your own identity address"))⟩ := by
  simp [killTry, h]

theorem submittingAfter_catch (b : Bool) (l r : List KillEffect) (x : JsVal)
    (hr : ∀ c, submittingAfter c r = c) :
    submittingAfter b (.preventDefault :: (l ++ ([.setSubmitting false, .toastFail x] ++ r)))
      = false := by
  simp [submittingAfter, submittingAfter_append, hr]

theorem killFailText_eq (t : String → String) (err : JsVal) :
    killFailText t err =
      if (err.isNullish || (err.get "message").isNullish) = true then
        .str (t "Something went wrong")
      else err.get "message" := by
  unfold killFailText JsVal.optGet JsVal.orElse
  cases h : err.isNullish
  · cases h2 : (err.get "message").isNullish <;> simp [h2]
  · simp [JsVal.isNullish]

theorem submissions_onErrorEffects (data : JsVal) :
    submissions (onErrorEffects data) = [] := by
  unfold onErrorEffects
  cases onError data <;> rfl

theorem miningRun_cons (s : MiningState) (ctx : MiningContext) (ev : MiningEvent)
    (rest : List MiningEvent) :
    miningRun s ctx (ev :: rest) =
      ⟨(miningRun (miningStep s ctx ev).state (miningStep s ctx ev).context rest).state,
        (miningRun (miningStep s ctx ev).state (miningStep s ctx ev).context rest).context,
        (miningStep s ctx ev).effects
          ++ (miningRun (miningStep s ctx ev).state (miningStep s ctx ev).context rest).effects⟩ :=
  rfl

theorem miningRun_changeModes_cancel (ctx : MiningContext) (modes : List NodeType)
    (tail : List MiningEvent) :
    miningRun .showing ctx (modes.map .CHANGE_MODE ++ .CANCEL :: tail)
      = miningRun .idle { ctx with mode := defaultMode ctx } tail := by
  induction modes generalizing ctx with
  | nil =>
    rw [List.map_nil, List.nil_append, miningRun_cons]
    simp [miningStep]
  | cons m ms ih =>
    rw [List.map_cons, List.cons_append, miningRun_cons]
    simp only [miningStep]
    rw [ih]
    simp [defaultMode]

theorem miningRun_changeModes_state (ctx : MiningContext) (modes : List NodeType) :
    (miningRun .showing ctx (modes.map .CHANGE_MODE)).state = .showing := by
  induction modes generalizing ctx with
  | nil => rfl
  | cons m ms ih => simp [miningRun, miningStep, ih]

theorem miningStep_avoids_mining (s : MiningState) (ctx : MiningContext) (ev : MiningEvent)
    (hs : s ≠ .showingMining) (hev : isSubmission ev = false) :
    (miningStep s ctx ev).state ≠ .showingMining := by
  cases s <;> cases ev <;> simp_all [miningStep, isSubmission]

theorem miningRun_avoids_mining (s : MiningState) (ctx : MiningContext)
    (evs : List MiningEvent) (hs : s ≠ .showingMining)
    (hev : ∀ ev ∈ evs, isSubmission ev = false) :
    (miningRun s ctx evs).state ≠ .showingMining := by
  induction evs generalizing s ctx with
  | nil => simpa [miningRun] using hs
  | cons ev rest ih =>
    simp only [miningRun]
    apply ih
    · exact miningStep_avoids_mining s ctx ev hs (hev ev (List.mem_cons_self _ _))
    · intro e he
      exact hev e (List.mem_cons_of_mem _ he)

theorem miningRun_stays_mining (ctx : MiningContext) (evs : List MiningEvent)
    (h : ∀ ev ∈ evs, leavesMining ev = false) :
    miningRun .showingMining ctx evs = ⟨.showingMining, ctx, []⟩ := by
  induction evs with
  | nil => rfl
  | cons ev rest ih =>
    have hev := h ev (List.mem_cons_self _ _)
    have hrest := ih (fun e he => h e (List.mem_cons_of_mem _ he))
    cases ev <;> simp_all [miningRun, miningStep, leavesMining]

theorem isTrue_of_not_truthy (v : JsVal) (h : v.truthy = false) : v.isTrue = false := by
  cases v with
  | bool b => cases b <;> simp_all [JsVal.truthy, JsVal.isTrue]
  | _ => rfl

theorem currentTask_none_validated (epoch : JsVal) (identity : Identity)
    (validationState : Option ValidationState) (status : IdentityStatus)
    (hstate : identity.state = some status)
    (hstatus : status = .Human ∨ status = .Verified ∨ status = .Newbie)
    (hinvite : identity.canActivateInvite.truthy = false) :
    CurrentTask epoch (some .None) identity validationState =
      (if identity.requiredFlips - ((identity.flips.getD []).length : Nat) > 0 then
        .link "/flips/list" ⟨"Create \x7b\x7bcount\x7d\x7d required flips",
          some (identity.requiredFlips - ((identity.flips.getD []).length : Nat))⟩
      else if identity.availableFlips
          - max identity.requiredFlips ((identity.flips.getD []).length : Nat) > 0 then
        .text ⟨"Wait for validation or create \x7b\x7bcount\x7d\x7d optional flips",
          some (identity.availableFlips
            - max identity.requiredFlips ((identity.flips.getD []).length : Nat))⟩
      else
        .text ⟨"Wait for validation", none⟩) := by
  have hi := isTrue_of_not_truthy _ hinvite
  rcases hstatus with h | h | h <;> subst h <;> simp [CurrentTask, hstate, hi]

theorem submissions_append (l r : List MiningEffect) :
    submissions (l ++ r) = submissions l ++ submissions r := by
  induction l with
  | nil => rfl
  | cons e l ih => cases e <;> simp [submissions, ih]

theorem miningStep_submission_bound (s : MiningState) (ctx : MiningContext)
    (ev : MiningEvent) :
    (submissions (miningStep s ctx ev).effects).length + inFlight s
      ≤ (if leavesMining ev = true then 1 else 0) + inFlight (miningStep s ctx ev).state := by
  cases s <;> cases ev <;>
    simp [miningStep, submissions, submissions_onErrorEffects, inFlight, leavesMining]

theorem miningRun_submission_bound (s : MiningState) (ctx : MiningContext)
    (evs : List MiningEvent) :
    (submissions (miningRun s ctx evs).effects).length + inFlight s
      ≤ (evs.filter leavesMining).length + inFlight (miningRun s ctx evs).state := by
  induction evs generalizing s ctx with
  | nil => simp [miningRun, submissions]
  | cons ev rest ih =>
    have hstep := miningStep_submission_bound s ctx ev
    have hrest := ih (miningStep s ctx ev).state (miningStep s ctx ev).context
    rw [miningRun_cons]
    simp only [submissions_append, List.length_append, List.filter_cons]
    by_cases hl : leavesMining ev = true
    · simp only [hl, if_true, List.length_cons] at hstep ⊢
      omega
    · simp only [hl, if_false] at hstep ⊢
      simp only [Bool.false_eq_true, if_false] at hstep ⊢
      omega

/-! ## Theorems -/

/-- C1: in `ActivateMiningForm`, for every `isOnline`, a string `delegatee`
makes the form render the `DeactivateMiningDrawer` and not the
`ActivateMiningDrawer`; for arbitrary props the `ActivateMiningDrawer` is
rendered exactly when `isOnline` is falsy and `delegatee` is not a string, and
exactly one of the two drawers is rendered. -/
theorem activateMiningForm_drawer_choice (isOnline delegatee : JsVal) (s : String)
    (delegationEpoch epoch : Option Int) (current : MiningState) (mode : NodeType) :
    rendersDeactivate
        (ActivateMiningForm ⟨isOnline, .str s, delegationEpoch⟩ epoch current mode) = true ∧
    rendersActivate
        (ActivateMiningForm ⟨isOnline, .str s, delegationEpoch⟩ epoch current mode) = false ∧
    rendersActivate
        (ActivateMiningForm ⟨isOnline, delegatee, delegationEpoch⟩ epoch current mode)
      = (!isOnline.truthy && !delegatee.isString) ∧
    rendersDeactivate
        (ActivateMiningForm ⟨isOnline, delegatee, delegationEpoch⟩ epoch current mode)
      = !rendersActivate
          (ActivateMiningForm ⟨isOnline, delegatee, delegationEpoch⟩ epoch current mode) := by
  refine ⟨?_, ?_, ?_, ?_⟩
  · simp [rendersDeactivate, activateMiningForm_drawer, isString_str]
  · simp [rendersActivate, activateMiningForm_drawer, isString_str]
  · cases h : isOnline.truthy <;> cases hd : delegatee.isString <;>
      simp [rendersActivate, activateMiningForm_drawer, h, hd]
  · cases h : isOnline.truthy <;> cases hd : delegatee.isString <;>
      simp [rendersActivate, rendersDeactivate, activateMiningForm_drawer, h, hd]

/-- C2: for a delegated identity (`delegatee` a string) with
`delegationEpoch = E` and current epoch `e`, the Submit control of the
deactivate drawer rendered by `ActivateMiningForm` is disabled exactly when
`e ≤ E`, that is, exactly when not `e > E`. -/
theorem undelegate_submit_disabled_iff (t : String → String) (isOnline : JsVal)
    (d : String) (e E : Int) (current : MiningState) (mode : NodeType) :
    (renderedDeactivateDrawer t ⟨isOnline, .str d, some E⟩ (some e) current mode).map
        (fun v => v.submitDisabled) = some (decide (e ≤ E)) ∧
    (decide (e ≤ E) = true ↔ ¬ e > E) := by
  refine ⟨?_, by simp⟩
  simp [renderedDeactivateDrawer, activateMiningForm_drawer, DeactivateMiningDrawer,
    canUndelegate, isString_str, truthy_bool]
  by_cases h : e ≤ E
  · simp [h, not_lt.mpr h]
  · simp [h, not_le.mp h]

/-- C3: in `DeactivateMiningDrawer`, for every `delegatee` and `canUndelegate`,
the banner is shown if and only if the Submit control is disabled; both hold
exactly when `delegatee` is a string and `canUndelegate` is falsy, the banner
text being `You can disable delegation at the next epoch only`; hence when
`delegatee` is not a string the Submit control is not disabled. -/
theorem deactivateDrawer_banner_iff_disabled (t : String → String) (isLoading : Bool)
    (delegatee canUndelegate : JsVal) :
    (DeactivateMiningDrawer t isLoading delegatee canUndelegate).banner.isSome
      = (DeactivateMiningDrawer t isLoading delegatee canUndelegate).submitDisabled ∧
    (DeactivateMiningDrawer t isLoading delegatee canUndelegate).submitDisabled
      = (delegatee.isString && !canUndelegate.truthy) ∧
    (DeactivateMiningDrawer t isLoading delegatee canUndelegate).banner
      = (if delegatee.isString && !canUndelegate.truthy
          then some (t "You can disable delegation at the next epoch only") else none) ∧
    (delegatee.isString
      || !(DeactivateMiningDrawer t isLoading delegatee canUndelegate).submitDisabled) = true := by
  cases hd : delegatee.isString <;> cases hc : canUndelegate.truthy <;>
    simp [DeactivateMiningDrawer, hd, hc]

/-- C4: in the submit handler of `KillForm`, when the entered address differs
from the own address (`to !== address`), `killMe` is not called, `submitting`
is false after every prefix of the effects, and the one failure notification
shown is `t('You must specify your own identity address')`, with no success
notification. -/
theorem killSubmit_address_mismatch (env : KillEnv) (toValue : String)
    (h : JsVal.strictNeStr toValue env.address = true) :
    killMeCalls (killSubmit env toValue).trace = [] ∧
    (∀ n, submittingAfter false ((killSubmit env toValue).trace.take n) = false) ∧
    killFailures (killSubmit env toValue).trace
      = [.str (env.t "You must specify your own identity address")] ∧
    (killSubmit env toValue).trace.take 3
      = [.preventDefault, .setSubmitting false,
          .toastFail (.str (env.t "You must specify your own identity address"))] := by
  have hk := killSubmit_of_thrown env toValue _ (by rw [killTry_mismatch env toValue h])
  rw [hk, killTry_mismatch env toValue h, killCatch_trace]
  have htxt : killFailText env.t (mkError (env.t "You must specify your own identity address"))
      = .str (env.t "You must specify your own identity address") := by
    simp [killFailText, mkError, JsVal.optGet, JsVal.orElse, JsVal.isNullish, JsVal.get,
      JsVal.lookup]
  rw [htxt]
  cases env.onFail with
  | none =>
    refine ⟨rfl, ?_, rfl, rfl⟩
    intro n
    rcases n with _ | _ | _ | _ | n <;> simp [submittingAfter]
  | some f =>
    refine ⟨rfl, ?_, rfl, rfl⟩
    intro n
    rcases n with _ | _ | _ | _ | n <;> simp [submittingAfter]

/-- Witness of `killSubmit_address_mismatch`: own address `0xabc`, entered `0xdef`. -/
theorem killSubmit_address_mismatch_witness :
    JsVal.strictNeStr "0xdef" (sampleKillEnv (.returns (.obj []))).address = true ∧
    killMeCalls (killSubmit (sampleKillEnv (.returns (.obj []))) "0xdef").trace = [] ∧
    (∀ n, submittingAfter false
        ((killSubmit (sampleKillEnv (.returns (.obj []))) "0xdef").trace.take n) = false) ∧
    killFailures (killSubmit (sampleKillEnv (.returns (.obj []))) "0xdef").trace
      = [.str ((sampleKillEnv (.returns (.obj []))).t
          "You must specify your own identity address")] ∧
    (killSubmit (sampleKillEnv (.returns (.obj []))) "0xdef").trace.take 3
      = [.preventDefault, .setSubmitting false,
          .toastFail (.str ((sampleKillEnv (.returns (.obj []))).t
            "You must specify your own identity address"))] :=
  ⟨by decide, killSubmit_address_mismatch (sampleKillEnv (.returns (.obj []))) "0xdef" (by decide)⟩

/-- C5: when `activateInvite` rejects with a value that carries no string
`message` (here the string `timeout`), the `catch` clause of
`ActivateInviteForm` itself throws a `TypeError` on `message.includes`: no
failure notification is issued and the handler rejects; the `onError` action
of `ActivateMiningForm` likewise throws on a failure whose data is `undefined`,
whereas `KillForm` shows its fallback text for the same thrown value. -/
theorem activateInviteSubmit_drops_error_without_message :
    inviteNotifications
        (activateInviteSubmit (sampleInviteEnv (.str "timeout")) (some "code")).trace = [] ∧
    (activateInviteSubmit (sampleInviteEnv (.str "timeout")) (some "code")).thrown
      = some (typeError "Cannot read properties of undefined (reading 'includes')") ∧
    toasts (onErrorEffects .undefined) = [] ∧
    killFailures (killSubmit (sampleKillEnv (.throws (.str "timeout"))) "0xabc").trace
      = [.str "Something went wrong"] := by
  refine ⟨?_, ?_, ?_, ?_⟩
  · simp [activateInviteSubmit, sampleInviteEnv, inviteCatch, JsVal.isNullish, JsVal.get,
      inviteNotifications]
  · simp [activateInviteSubmit, sampleInviteEnv, inviteCatch, JsVal.isNullish, JsVal.get]
  · simp [onErrorEffects, onError, JsVal.isNullish, toasts]
  · simp [killSubmit, killTry, killCatch, sampleKillEnv, JsVal.strictNeStr, killFailText,
      JsVal.optGet, JsVal.orElse, JsVal.isNullish, JsVal.get, killFailures]

/-- C6: for every failure event whose data carries the message `m`, the
`onError` action of `ActivateMiningForm` shows exactly one error notification,
of status `error`, whose title is `m` itself. -/
theorem onError_title_is_message (data : JsVal) (m : String)
    (h : data.get "message" = .str m) :
    onErrorEffects data = [.toast { status := "error", title := .str m, toastStatus := "error" }] ∧
    toasts (onErrorEffects data)
      = [{ status := "error", title := .str m, toastStatus := "error" }] := by
  have hn : data.isNullish = false := by
    cases data <;> simp_all [JsVal.get, JsVal.isNullish]
  simp [onErrorEffects, onError, hn, h, toasts]

/-- Witness of `onError_title_is_message`: the failure `new Error('insufficient funds')`. -/
theorem onError_title_is_message_witness :
    (mkError "insufficient funds").get "message" = .str "insufficient funds" ∧
    onErrorEffects (mkError "insufficient funds")
      = [.toast { status := "error", title := .str "insufficient funds",
                  toastStatus := "error" }] ∧
    toasts (onErrorEffects (mkError "insufficient funds"))
      = [{ status := "error", title := .str "insufficient funds", toastStatus := "error" }] :=
  ⟨by simp [mkError, JsVal.get, JsVal.lookup],
    onError_title_is_message (mkError "insufficient funds") "insufficient funds"
      (by simp [mkError, JsVal.get, JsVal.lookup])⟩

/-- C7, as stated, fails: when `activateInvite` fails with the message
`missing`, the notification shown is `Invitation code is not valid`, not the
message. -/
theorem activateInviteSubmit_raw_message_counterexample :
    ¬ ∀ (env : InviteEnv) (code : Option String) (m : String),
        env.activateInvite (trimmedCode code) = some (mkError m) →
        inviteNotifications (activateInviteSubmit env code).trace = [.str m] := by
  intro hall
  have h := hall (sampleInviteEnv (mkError "missing")) none "missing" rfl
  have hrun : inviteNotifications
      (activateInviteSubmit (sampleInviteEnv (mkError "missing")) none).trace
      = [.str "Invitation code is not valid"] := by
    have hinc : includes "missing" "missing" = true := by decide
    simp [activateInviteSubmit, sampleInviteEnv, inviteCatch, mkError, JsVal.isNullish,
      JsVal.get, JsVal.lookup, hinc, inviteNotifications]
  rw [hrun] at h
  simp at h

/-- C7, amended: when `activateInvite` fails with a value whose message is the
string `m`, the submit handler of `ActivateInviteForm` shows exactly one
failure notification and does not throw; the notification is
`t('Invitation code is not valid')` when `m` contains `missing`, else
`t('Can not activate invitation since the validation is running')` when `m`
contains `validation ceremony`, and otherwise `m` itself, unmodified. -/
theorem activateInviteSubmit_failure_notification (env : InviteEnv) (code : Option String)
    (err : JsVal) (m : String)
    (hrej : env.activateInvite (trimmedCode code) = some err)
    (hmsg : err.get "message" = .str m) :
    inviteNotifications (activateInviteSubmit env code).trace =
      [.str (if includes m "missing" = true then env.t "Invitation code is not valid"
             else if includes m "validation ceremony" = true then
               env.t "Can not activate invitation since the validation is running"
             else m)] ∧
    (activateInviteSubmit env code).thrown = none := by
  have hn : err.isNullish = false := by
    cases err <;> simp_all [JsVal.get, JsVal.isNullish]
  by_cases h1 : includes m "missing" = true
  · simp [activateInviteSubmit, hrej, inviteCatch, hn, hmsg, h1, inviteNotifications]
  · by_cases h2 : includes m "validation ceremony" = true
    · simp [activateInviteSubmit, hrej, inviteCatch, hn, hmsg, h1, h2, inviteNotifications]
    · simp [activateInviteSubmit, hrej, inviteCatch, hn, hmsg, h1, h2, inviteNotifications]

/-- Witness of `activateInviteSubmit_failure_notification`: the failure
`new Error('insufficient funds')` is shown unmodified. -/
theorem activateInviteSubmit_failure_notification_witness :
    (sampleInviteEnv (mkError "insufficient funds")).activateInvite (trimmedCode none)
      = some (mkError "insufficient funds") ∧
    (mkError "insufficient funds").get "message" = .str "insufficient funds" ∧
    inviteNotifications
        (activateInviteSubmit (sampleInviteEnv (mkError "insufficient funds")) none).trace =
      [.str (if includes "insufficient funds" "missing" = true then
               (sampleInviteEnv (mkError "insufficient funds")).t "Invitation code is not valid"
             else if includes "insufficient funds" "validation ceremony" = true then
               (sampleInviteEnv (mkError "insufficient funds")).t
                 "Can not activate invitation since the validation is running"
             else "insufficient funds")] ∧
    (activateInviteSubmit (sampleInviteEnv (mkError "insufficient funds")) none).thrown = none :=
  ⟨rfl, by simp [mkError, JsVal.get, JsVal.lookup],
    activateInviteSubmit_failure_notification (sampleInviteEnv (mkError "insufficient funds"))
      none (mkError "insufficient funds") "insufficient funds" rfl
      (by simp [mkError, JsVal.get, JsVal.lookup])⟩

/-- C8: in the submit handler of `KillForm`, every value `err` thrown inside
the `try` block is caught: the handler then resets `submitting` to false and
shows, as its last failure notification, `err.message` when `err` and its
message are not nullish and `t('Something went wrong')` otherwise; the
handler rejects only with what the `onFail` callback itself throws, so not at
all when `onFail` is absent or returns. -/
theorem killSubmit_catches_thrown (env : KillEnv) (toValue : String) (err : JsVal)
    (h : (killTry env toValue).thrown = some err) :
    (killSubmit env toValue).trace =
      .preventDefault :: ((killTry env toValue).trace ++
        ([.setSubmitting false,
          .toastFail (if (err.isNullish || (err.get "message").isNullish) = true then
              .str (env.t "Something went wrong") else err.get "message")] ++
          (match env.onFail with
           | none => []
           | some _ => [.onFail err]))) ∧
    (∀ b, submittingAfter b (killSubmit env toValue).trace = false) ∧
    (killFailures (killSubmit env toValue).trace).getLast? =
      some (if (err.isNullish || (err.get "message").isNullish) = true then
              .str (env.t "Something went wrong") else err.get "message") ∧
    (killSubmit env toValue).thrown = env.onFail.bind (fun f => f err) := by
  have htr : (killSubmit env toValue).trace =
      .preventDefault :: ((killTry env toValue).trace ++
        ([.setSubmitting false,
          .toastFail (if (err.isNullish || (err.get "message").isNullish) = true then
              .str (env.t "Something went wrong") else err.get "message")] ++
          (match env.onFail with
           | none => []
           | some _ => [.onFail err]))) := by
    rw [killSubmit_of_thrown env toValue err h, killCatch_trace, killFailText_eq]
  refine ⟨htr, ?_, ?_, ?_⟩
  · intro b
    rw [htr]
    apply submittingAfter_catch
    intro c
    cases env.onFail <;> rfl
  · rw [htr]
    cases env.onFail <;>
      simp [killFailures, killFailures_append, List.getLast?_append]
  · rw [killSubmit_of_thrown env toValue err h, killCatch_thrown]

/-- Witness of `killSubmit_catches_thrown`: `killMe` rejects with the string
`boom`, which has no message, so the fallback text is shown. -/
theorem killSubmit_catches_thrown_witness :
    (killTry (sampleKillEnv (.throws (.str "boom"))) "0xabc").thrown = some (.str "boom") ∧
    (killSubmit (sampleKillEnv (.throws (.str "boom"))) "0xabc").trace =
      .preventDefault :: ((killTry (sampleKillEnv (.throws (.str "boom"))) "0xabc").trace ++
        ([.setSubmitting false,
          .toastFail (if ((JsVal.str "boom").isNullish
                || ((JsVal.str "boom").get "message").isNullish) = true then
              .str ((sampleKillEnv (.throws (.str "boom"))).t "Something went wrong")
            else (JsVal.str "boom").get "message")] ++
          (match (sampleKillEnv (.throws (.str "boom"))).onFail with
           | none => []
           | some _ => [.onFail (.str "boom")]))) ∧
    (∀ b, submittingAfter b
        (killSubmit (sampleKillEnv (.throws (.str "boom"))) "0xabc").trace = false) ∧
    (killFailures (killSubmit (sampleKillEnv (.throws (.str "boom"))) "0xabc").trace).getLast? =
      some (if ((JsVal.str "boom").isNullish
                || ((JsVal.str "boom").get "message").isNullish) = true then
              .str ((sampleKillEnv (.throws (.str "boom"))).t "Something went wrong")
            else (JsVal.str "boom").get "message") ∧
    (killSubmit (sampleKillEnv (.throws (.str "boom"))) "0xabc").thrown
      = (sampleKillEnv (.throws (.str "boom"))).onFail.bind (fun f => f (.str "boom")) :=
  ⟨by simp [killTry, sampleKillEnv, JsVal.strictNeStr],
    killSubmit_catches_thrown (sampleKillEnv (.throws (.str "boom"))) "0xabc" (.str "boom")
      (by simp [killTry, sampleKillEnv, JsVal.strictNeStr])⟩

/-- C9: from `showing`, an ACTIVATE event moves the controller to
`showing.mining` and starts the submission; when the submission succeeds the
controller ends in `idle` with no notification, and when it fails with a
value whose message is `m` the controller ends in `showing` and exactly one
error notification, titled `m`, is emitted. -/
theorem activate_submission_outcomes (ctx : MiningContext) (delegatee data : JsVal)
    (m : String) (h : data.get "message" = .str m) :
    (miningStep .showing ctx (.ACTIVATE delegatee)).state = .showingMining ∧
    (miningStep .showingMining ctx .submitDone).state = .idle ∧
    (miningStep .showingMining ctx (.submitFailed data)).state = .showing ∧
    (miningRun .showing ctx [.ACTIVATE delegatee, .submitDone]).state = .idle ∧
    toasts (miningRun .showing ctx [.ACTIVATE delegatee, .submitDone]).effects = [] ∧
    (miningRun .showing ctx [.ACTIVATE delegatee, .submitFailed data]).state = .showing ∧
    toasts (miningRun .showing ctx [.ACTIVATE delegatee, .submitFailed data]).effects
      = [{ status := "error", title := .str m, toastStatus := "error" }] := by
  have hn : data.isNullish = false := by
    cases data <;> simp_all [JsVal.get, JsVal.isNullish]
  simp [miningRun, miningStep, onErrorEffects, onError, hn, h, toasts]

/-- Witness of `activate_submission_outcomes`: the submission fails with
`new Error('insufficient funds')`. -/
theorem activate_submission_outcomes_witness :
    (mkError "insufficient funds").get "message" = .str "insufficient funds" ∧
    (miningStep .showing ⟨.bool false, .undefined, none, .Miner⟩
        (.ACTIVATE .undefined)).state = .showingMining ∧
    (miningStep .showingMining ⟨.bool false, .undefined, none, .Miner⟩ .submitDone).state
      = .idle ∧
    (miningStep .showingMining ⟨.bool false, .undefined, none, .Miner⟩
        (.submitFailed (mkError "insufficient funds"))).state = .showing ∧
    (miningRun .showing ⟨.bool false, .undefined, none, .Miner⟩
        [.ACTIVATE .undefined, .submitDone]).state = .idle ∧
    toasts (miningRun .showing ⟨.bool false, .undefined, none, .Miner⟩
        [.ACTIVATE .undefined, .submitDone]).effects = [] ∧
    (miningRun .showing ⟨.bool false, .undefined, none, .Miner⟩
        [.ACTIVATE .undefined, .submitFailed (mkError "insufficient funds")]).state
      = .showing ∧
    toasts (miningRun .showing ⟨.bool false, .undefined, none, .Miner⟩
        [.ACTIVATE .undefined, .submitFailed (mkError "insufficient funds")]).effects
      = [{ status := "error", title := .str "insufficient funds", toastStatus := "error" }] :=
  ⟨by simp [mkError, JsVal.get, JsVal.lookup],
    activate_submission_outcomes ⟨.bool false, .undefined, none, .Miner⟩ .undefined
      (mkError "insufficient funds") "insufficient funds"
      (by simp [mkError, JsVal.get, JsVal.lookup])⟩

/-- C10: whenever `isOnline` or `delegatee` differs from the previous render,
the effect of `ActivateMiningForm` sends exactly one CANCEL event, and that
event takes the controller to `idle` from `showing` and from `showing.mining`
alike. -/
theorem external_change_forces_idle (prev cur : MiningFormProps) (s : MiningState)
    (ctx : MiningContext) (hchg : depsChanged prev cur = true)
    (hs : s = .showing ∨ s = .showingMining) :
    effectEvents (some prev) cur = [.CANCEL] ∧
    (miningStep s ctx .CANCEL).state = .idle ∧
    (miningRun s ctx (effectEvents (some prev) cur)).state = .idle := by
  have he : effectEvents (some prev) cur = [.CANCEL] := by
    simp [effectEvents, hchg]
  rw [he]
  rcases hs with hs | hs <;> subst hs <;> simp [miningRun, miningStep]

/-- Witness of `external_change_forces_idle`: `isOnline` flips from false to
true while a submission is in flight. -/
theorem external_change_forces_idle_witness :
    depsChanged ⟨.bool false, .undefined, none⟩ ⟨.bool true, .undefined, none⟩ = true ∧
    (MiningState.showingMining = .showing ∨ MiningState.showingMining = .showingMining) ∧
    effectEvents (some ⟨.bool false, .undefined, none⟩) ⟨.bool true, .undefined, none⟩
      = [.CANCEL] ∧
    (miningStep .showingMining ⟨.bool false, .undefined, none, .Miner⟩ .CANCEL).state = .idle ∧
    (miningRun .showingMining ⟨.bool false, .undefined, none, .Miner⟩
      (effectEvents (some ⟨.bool false, .undefined, none⟩)
        ⟨.bool true, .undefined, none⟩)).state = .idle :=
  ⟨by decide, Or.inr rfl,
    external_change_forces_idle ⟨.bool false, .undefined, none⟩ ⟨.bool true, .undefined, none⟩
      .showingMining ⟨.bool false, .undefined, none, .Miner⟩ (by decide) (Or.inr rfl)⟩

/-- C11: after a SHOW followed by any number of CHANGE_MODE events the
controller is in `showing`; a CANCEL event, the one sent by the `onClose` of
either drawer, then returns it to `idle` with the context it had right after
the SHOW, so the mode changes are discarded, and a further SHOW opens the
drawer with the default mode again. -/
theorem cancel_discards_mode_changes (ctx : MiningContext) (modes : List NodeType) :
    (miningRun .idle ctx (.SHOW :: modes.map .CHANGE_MODE)).state = .showing ∧
    (miningRun .idle ctx (.SHOW :: (modes.map .CHANGE_MODE ++ [onCloseEvent]))).state
      = .idle ∧
    (miningRun .idle ctx (.SHOW :: (modes.map .CHANGE_MODE ++ [onCloseEvent]))).context
      = (miningStep .idle ctx .SHOW).context ∧
    (miningRun .idle ctx
        (.SHOW :: (modes.map .CHANGE_MODE ++ [onCloseEvent, .SHOW]))).context.mode
      = defaultMode ctx := by
  refine ⟨?_, ?_, ?_, ?_⟩
  · simp [miningRun, miningStep, miningRun_changeModes_state]
  · rw [miningRun_cons]
    simp only [miningStep, onCloseEvent]
    rw [miningRun_changeModes_cancel]
    rfl
  · rw [miningRun_cons]
    simp only [miningStep, onCloseEvent]
    rw [miningRun_changeModes_cancel]
    simp [miningRun, defaultMode]
  · rw [miningRun_cons]
    simp only [miningStep, onCloseEvent]
    rw [miningRun_changeModes_cancel]
    simp [miningRun, miningStep, defaultMode]

/-- C12: for every sequence of events containing neither ACTIVATE nor
DEACTIVATE, the controller started in `idle` is never in `showing.mining`,
after any prefix of the sequence; among the events sent by `ActivateMiningForm`
those of `onShow`, `onChangeMode`, `onClose` and of the props effect are not
submissions, those of `onActivate` and `onDeactivate` are. -/
theorem no_mining_without_submission (ctx : MiningContext) (evs : List MiningEvent)
    (h : ∀ ev ∈ evs, isSubmission ev = false) :
    (∀ n, (miningRun .idle ctx (evs.take n)).state ≠ .showingMining) ∧
    isSubmission onShowEvent = false ∧
    isSubmission onCloseEvent = false ∧
    (∀ v, isSubmission (onChangeModeEvent v) = false) ∧
    (∀ prev cur, ∀ ev ∈ effectEvents prev cur, isSubmission ev = false) ∧
    (∀ d, isSubmission (onActivateEvent d) = true) ∧
    (∀ props, isSubmission (onDeactivateEvent props) = true) := by
  refine ⟨?_, rfl, rfl, fun _ => rfl, ?_, fun _ => rfl, fun _ => rfl⟩
  · intro n
    apply miningRun_avoids_mining
    · decide
    · intro ev hev
      exact h ev (List.mem_of_mem_take hev)
  · intro prev cur ev hev
    cases prev with
    | none =>
      simp [effectEvents] at hev
      subst hev
      rfl
    | some p =>
      by_cases hc : depsChanged p cur = true
      · simp [effectEvents, hc] at hev
        subst hev
        rfl
      · simp [effectEvents, hc] at hev

/-- Witness of `no_mining_without_submission`: open, change mode, close, open. -/
theorem no_mining_without_submission_witness :
    (∀ ev ∈ [MiningEvent.SHOW, .CHANGE_MODE .Delegator, .CANCEL, .SHOW],
        isSubmission ev = false) ∧
    (∀ n, (miningRun .idle ⟨.bool false, .undefined, none, .Miner⟩
        ([MiningEvent.SHOW, .CHANGE_MODE .Delegator, .CANCEL, .SHOW].take n)).state
          ≠ .showingMining) ∧
    isSubmission onShowEvent = false ∧
    isSubmission onCloseEvent = false ∧
    (∀ v, isSubmission (onChangeModeEvent v) = false) ∧
    (∀ prev cur, ∀ ev ∈ effectEvents prev cur, isSubmission ev = false) ∧
    (∀ d, isSubmission (onActivateEvent d) = true) ∧
    (∀ props, isSubmission (onDeactivateEvent props) = true) :=
  ⟨by simp [isSubmission],
    no_mining_without_submission ⟨.bool false, .undefined, none, .Miner⟩
      [.SHOW, .CHANGE_MODE .Delegator, .CANCEL, .SHOW] (by simp [isSubmission])⟩

/-- C13, as stated, fails: the user opens the drawer and activates mining;
while that submission is in flight `isOnline` changes, so the props effect of
`ActivateMiningForm` sends CANCEL and the controller goes to `idle`; the user
opens the drawer again and deactivates. Two submissions are started although
no completion event occurs in the whole run. -/
theorem second_submission_before_completion_counterexample :
    submissions (miningRun .idle ⟨.bool false, .undefined, none, .Miner⟩
        ([onShowEvent, onActivateEvent .undefined]
          ++ effectEvents (some ⟨.bool false, .undefined, none⟩) ⟨.bool true, .undefined, none⟩
          ++ [onShowEvent, onDeactivateEvent ⟨.bool true, .undefined, none⟩])).effects
      = [.submitActivate .undefined, .submitDeactivate .Miner] ∧
    (([onShowEvent, onActivateEvent .undefined]
        ++ effectEvents (some ⟨.bool false, .undefined, none⟩) ⟨.bool true, .undefined, none⟩
        ++ [onShowEvent, onDeactivateEvent ⟨.bool true, .undefined, none⟩]).filter
          isCompletion).length = 0 ∧
    submissions (miningRun .idle ⟨.bool false, .undefined, none, .Miner⟩
        [.SHOW, .ACTIVATE (.str "A"), onCloseEvent, .SHOW, .ACTIVATE (.str "B")]).effects
      = [.submitActivate (.str "A"), .submitActivate (.str "B")] := by
  refine ⟨?_, ?_, ?_⟩
  · simp [effectEvents, depsChanged, JsVal.objectIs, onShowEvent, onActivateEvent,
      onDeactivateEvent, JsVal.isString, miningRun, miningStep, submissions]
  · simp [effectEvents, depsChanged, JsVal.objectIs, onShowEvent, onActivateEvent,
      onDeactivateEvent, JsVal.isString, isCompletion]
  · simp [onCloseEvent, miningRun, miningStep, submissions]

/-- C13, amended: a step of the controller starts a submission exactly when
it is in `showing` and the event is ACTIVATE or DEACTIVATE, it then starts
exactly one and enters `showing.mining`; in `showing.mining` an ACTIVATE or
DEACTIVATE event changes nothing, and as long as the submission has not
completed and no CANCEL arrives, any sequence of events leaves the controller
in `showing.mining` without starting a second submission. Over any run from
`idle`, the number of submissions started is at most the number of
completions and CANCEL events plus the one submission in flight, if any: a
further submission begins only after the previous one completed or was
abandoned by a CANCEL. -/
theorem one_submission_per_entry (s : MiningState) (ctx : MiningContext) (ev : MiningEvent)
    (delegatee : JsVal) (mode : NodeType) (evs run : List MiningEvent)
    (h : ∀ e ∈ evs, leavesMining e = false) :
    (submissions (miningStep s ctx ev).effects).length
      = (if s = .showing ∧ isSubmission ev = true then 1 else 0) ∧
    miningStep .showing ctx (.ACTIVATE delegatee)
      = ⟨.showingMining, ctx, [.submitActivate delegatee]⟩ ∧
    miningStep .showing ctx (.DEACTIVATE mode)
      = ⟨.showingMining, ctx, [.submitDeactivate mode]⟩ ∧
    miningStep .showingMining ctx (.ACTIVATE delegatee) = ⟨.showingMining, ctx, []⟩ ∧
    miningStep .showingMining ctx (.DEACTIVATE mode) = ⟨.showingMining, ctx, []⟩ ∧
    miningRun .showingMining ctx evs = ⟨.showingMining, ctx, []⟩ ∧
    (submissions (miningRun .idle ctx run).effects).length
      ≤ (run.filter leavesMining).length + inFlight (miningRun .idle ctx run).state := by
  refine ⟨?_, rfl, rfl, rfl, rfl, miningRun_stays_mining ctx evs h, ?_⟩
  · cases s <;> cases ev <;>
      simp [miningStep, submissions, isSubmission, submissions_onErrorEffects]
  · have hb := miningRun_submission_bound .idle ctx run
    simpa [inFlight] using hb

/-- Witness of `one_submission_per_entry`: two more submission events arrive
while the first submission is in flight; and in the run open, activate,
cancel, open, activate, the two submissions started are within the bound of
one CANCEL plus the one in flight. -/
theorem one_submission_per_entry_witness :
    (∀ e ∈ [MiningEvent.ACTIVATE .undefined, .DEACTIVATE .Miner], leavesMining e = false) ∧
    (submissions (miningStep .showing ⟨.bool false, .undefined, none, .Miner⟩
        (.ACTIVATE .undefined)).effects).length
      = (if MiningState.showing = .showing ∧ isSubmission (.ACTIVATE .undefined) = true
          then 1 else 0) ∧
    miningStep .showing ⟨.bool false, .undefined, none, .Miner⟩ (.ACTIVATE .undefined)
      = ⟨.showingMining, ⟨.bool false, .undefined, none, .Miner⟩,
          [.submitActivate .undefined]⟩ ∧
    miningStep .showing ⟨.bool false, .undefined, none, .Miner⟩ (.DEACTIVATE .Miner)
      = ⟨.showingMining, ⟨.bool false, .undefined, none, .Miner⟩,
          [.submitDeactivate .Miner]⟩ ∧
    miningStep .showingMining ⟨.bool false, .undefined, none, .Miner⟩ (.ACTIVATE .undefined)
      = ⟨.showingMining, ⟨.bool false, .undefined, none, .Miner⟩, []⟩ ∧
    miningStep .showingMining ⟨.bool false, .undefined, none, .Miner⟩ (.DEACTIVATE .Miner)
      = ⟨.showingMining, ⟨.bool false, .undefined, none, .Miner⟩, []⟩ ∧
    miningRun .showingMining ⟨.bool false, .undefined, none, .Miner⟩
        [.ACTIVATE .undefined, .DEACTIVATE .Miner]
      = ⟨.showingMining, ⟨.bool false, .undefined, none, .Miner⟩, []⟩ ∧
    (submissions (miningRun .idle ⟨.bool false, .undefined, none, .Miner⟩
        [.SHOW, .ACTIVATE .undefined, .CANCEL, .SHOW, .ACTIVATE .undefined]).effects).length
      ≤ ([MiningEvent.SHOW, .ACTIVATE .undefined, .CANCEL, .SHOW,
            .ACTIVATE .undefined].filter leavesMining).length
          + inFlight (miningRun .idle ⟨.bool false, .undefined, none, .Miner⟩
              [.SHOW, .ACTIVATE .undefined, .CANCEL, .SHOW, .ACTIVATE .undefined]).state :=
  ⟨by simp [leavesMining],
    one_submission_per_entry .showing ⟨.bool false, .undefined, none, .Miner⟩
      (.ACTIVATE .undefined) .undefined .Miner [.ACTIVATE .undefined, .DEACTIVATE .Miner]
      [.SHOW, .ACTIVATE .undefined, .CANCEL, .SHOW, .ACTIVATE .undefined]
      (by simp [leavesMining])⟩

/-- C14, as stated, fails: with a submission in flight, a change of `isOnline`
makes the props effect of `ActivateMiningForm` send CANCEL, and CANCEL, also
the event of `onClose`, takes the controller from `showing.mining` to `idle`. -/
theorem cancel_in_flight_counterexample :
    effectEvents (some ⟨.bool false, .undefined, none⟩) ⟨.bool true, .undefined, none⟩
      = [.CANCEL] ∧
    (miningRun .showingMining ⟨.bool false, .undefined, none, .Miner⟩
      (effectEvents (some ⟨.bool false, .undefined, none⟩)
        ⟨.bool true, .undefined, none⟩)).state = .idle ∧
    (miningStep .showingMining ⟨.bool false, .undefined, none, .Miner⟩ onCloseEvent).state
      ≠ .showingMining ∧
    ¬ ∀ ctx : MiningContext, (miningStep .showingMining ctx .CANCEL).state = .showingMining := by
  refine ⟨?_, ?_, ?_, ?_⟩
  · simp [effectEvents, depsChanged, JsVal.objectIs]
  · simp [effectEvents, depsChanged, JsVal.objectIs, miningRun, miningStep]
  · simp [onCloseEvent, miningStep]
  · intro hall
    have h := hall ⟨.bool false, .undefined, none, .Miner⟩
    simp [miningStep] at h

/-- C14, amended: CANCEL is a transition from `showing` and from
`showing.mining` alike, both leading to `idle`, and is ignored in `idle`; the
props effect sends it on mount and on every change of `isOnline` or
`delegatee`, whatever the state of the controller. The CANCEL step emits no
effect, so nothing reaches the submission in flight, and a completion that
arrives once the controller is `idle` is ignored. -/
theorem cancel_goes_idle_without_effect (ctx : MiningContext) (data : JsVal)
    (prev cur : MiningFormProps) :
    miningStep .showing ctx .CANCEL = ⟨.idle, { ctx with mode := defaultMode ctx }, []⟩ ∧
    miningStep .showingMining ctx .CANCEL
      = ⟨.idle, { ctx with mode := defaultMode ctx }, []⟩ ∧
    miningStep .idle ctx .CANCEL = ⟨.idle, ctx, []⟩ ∧
    effectEvents none cur = [.CANCEL] ∧
    effectEvents (some prev) cur = (if depsChanged prev cur = true then [.CANCEL] else []) ∧
    miningStep .idle ctx .submitDone = ⟨.idle, ctx, []⟩ ∧
    miningStep .idle ctx (.submitFailed data) = ⟨.idle, ctx, []⟩ := by
  refine ⟨rfl, rfl, rfl, rfl, ?_, rfl, rfl⟩
  simp [effectEvents]

/-- C15: the drawer props computed by `ActivateMiningForm` from the controller
state are: in `idle` not open and not loading; in `showing` open and not
loading; in `showing.mining` open and loading; the drawer is never closeable,
and in every state `isLoading` implies `isOpen`. -/
theorem drawer_projection (props : MiningFormProps) (epoch : Option Int)
    (current : MiningState) (mode : NodeType) :
    (ActivateMiningForm props epoch .idle mode).drawer.isOpen = false ∧
    (ActivateMiningForm props epoch .idle mode).drawer.isLoading = false ∧
    (ActivateMiningForm props epoch .showing mode).drawer.isOpen = true ∧
    (ActivateMiningForm props epoch .showing mode).drawer.isLoading = false ∧
    (ActivateMiningForm props epoch .showingMining mode).drawer.isOpen = true ∧
    (ActivateMiningForm props epoch .showingMining mode).drawer.isLoading = true ∧
    (ActivateMiningForm props epoch .showingMining mode).drawer.isCloseable = false ∧
    (ActivateMiningForm props epoch current mode).drawer.isCloseable = false ∧
    (!(ActivateMiningForm props epoch current mode).drawer.isLoading
      || (ActivateMiningForm props epoch current mode).drawer.isOpen) = true := by
  simp only [activateMiningForm_drawer]
  cases h : (props.isOnline.truthy || props.delegatee.isString) <;> cases current <;>
    simp [DrawerElement.isOpen, DrawerElement.isLoading, DrawerElement.isCloseable,
      matchesShowing, matchesMining]

/-- C16: the DEACTIVATE event sent by `ActivateMiningForm` carries the mode
`Delegator` if and only if `delegatee` is a string and the mode `Miner` if and
only if it is not, for every `isOnline`; so for an identity that is online and
has a delegatee the deactivate drawer is rendered and its submission asks to
deactivate the mode `Delegator`. -/
theorem deactivate_event_mode (isOnline delegatee : JsVal) (s : String)
    (delegationEpoch epoch : Option Int) (current : MiningState) (mode : NodeType)
    (ctx : MiningContext) :
    onDeactivateEvent ⟨isOnline, .str s, delegationEpoch⟩ = .DEACTIVATE .Delegator ∧
    (onDeactivateEvent ⟨isOnline, delegatee, delegationEpoch⟩ = .DEACTIVATE .Delegator
      ↔ delegatee.isString = true) ∧
    (onDeactivateEvent ⟨isOnline, delegatee, delegationEpoch⟩ = .DEACTIVATE .Miner
      ↔ delegatee.isString = false) ∧
    rendersDeactivate
      (ActivateMiningForm ⟨.bool true, .str s, delegationEpoch⟩ epoch current mode) = true ∧
    (miningStep .showing ctx
        (onDeactivateEvent ⟨.bool true, .str s, delegationEpoch⟩)).effects
      = [.submitDeactivate .Delegator] := by
  refine ⟨rfl, ?_, ?_, ?_, rfl⟩
  · cases h : delegatee.isString <;> simp [onDeactivateEvent, h]
  · cases h : delegatee.isString <;> simp [onDeactivateEvent, h]
  · simp [rendersDeactivate, activateMiningForm_drawer, isString_str]

/-- C17, as stated, fails: with a matching address, `killMe` returning a
result and an `onSuccess` callback that throws, the success notification is
followed by a failure notification, and both `onSuccess` and `onFail` are
called. -/
theorem killSubmit_two_notifications_counterexample :
    killNotifications (killSubmit (sampleKillEnvWithCallbacks
        (.returns (.obj [("result", .str "0xtx")])) (some (mkError "callback failed")))
        "0xabc").trace
      = [.toastSuccess (.str "Transaction sent"), .toastFail (.str "callback failed")] ∧
    onSuccessCalls (killSubmit (sampleKillEnvWithCallbacks
        (.returns (.obj [("result", .str "0xtx")])) (some (mkError "callback failed")))
        "0xabc").trace = [.str "0xtx"] ∧
    onFailCalls (killSubmit (sampleKillEnvWithCallbacks
        (.returns (.obj [("result", .str "0xtx")])) (some (mkError "callback failed")))
        "0xabc").trace = [mkError "callback failed"] := by
  refine ⟨?_, ?_, ?_⟩ <;>
    simp [killSubmit, killTry, killCatch, sampleKillEnvWithCallbacks, JsVal.strictNeStr,
      JsVal.isNullish, JsVal.get, JsVal.lookup, JsVal.truthy, killFailText, JsVal.optGet,
      JsVal.orElse, mkError, killNotifications, onSuccessCalls, onFailCalls]

/-- C17, amended: in the submit handler of `KillForm` with a matching address
and an `onSuccess` callback that does not throw, exactly one notification is
shown and `submitting` ends false. When `killMe` returns a value whose `error`
is truthy, the notification is the failure
`{title: t('Error while sending transaction'), description: error.message}`
and no callback is called; when it returns a value whose `error` is falsy,
the notification is the success `t('Transaction sent')` and only `onSuccess`,
if given, is called, with `result`; when `killMe` throws, or returns
`undefined` or `null`, the notification is the failure text of the `catch`
clause and only `onFail`, if given, is called, with the caught value. -/
theorem killSubmit_outcomes (env : KillEnv) (toValue : String)
    (hmatch : JsVal.strictNeStr toValue env.address = false)
    (hok : ∀ f, env.onSuccess = some f → ∀ r, f r = none) :
    (killNotifications (killSubmit env toValue).trace).length = 1 ∧
    (∀ b, submittingAfter b (killSubmit env toValue).trace = false) ∧
    (match env.killMe (.obj [("to", .str toValue)]) with
     | .returns v =>
       if v.isNullish = true then
         killNotifications (killSubmit env toValue).trace
           = [.toastFail (killFailText env.t (typeError
               "Cannot destructure property 'result' of '(intermediate value)' as it is undefined."))] ∧
         onSuccessCalls (killSubmit env toValue).trace = [] ∧
         onFailCalls (killSubmit env toValue).trace
           = (if env.onFail.isSome = true then [typeError
               "Cannot destructure property 'result' of '(intermediate value)' as it is undefined."]
              else [])
       else if (v.get "error").truthy = true then
         killNotifications (killSubmit env toValue).trace
           = [.toastFail (.obj [("title", .str (env.t "Error while sending transaction")),
                                ("description", (v.get "error").get "message")])] ∧
         onSuccessCalls (killSubmit env toValue).trace = [] ∧
         onFailCalls (killSubmit env toValue).trace = []
       else
         killNotifications (killSubmit env toValue).trace
           = [.toastSuccess (.str (env.t "Transaction sent"))] ∧
         onSuccessCalls (killSubmit env toValue).trace
           = (if env.onSuccess.isSome = true then [v.get "result"] else []) ∧
         onFailCalls (killSubmit env toValue).trace = []
     | .throws err =>
       killNotifications (killSubmit env toValue).trace
         = [.toastFail (killFailText env.t err)] ∧
       onSuccessCalls (killSubmit env toValue).trace = [] ∧
       onFailCalls (killSubmit env toValue).trace
         = (if env.onFail.isSome = true then [err] else [])) := by
  cases hk : env.killMe (.obj [("to", .str toValue)]) with
  | throws err =>
    cases hf : env.onFail <;>
      simp [killSubmit, killTry, killCatch, hmatch, hk, hf, killNotifications, submittingAfter,
        onSuccessCalls, onFailCalls]
  | returns v =>
    cases hn : v.isNullish
    · cases he : (v.get "error").truthy
      · cases hs : env.onSuccess with
        | none =>
          simp [killSubmit, killTry, hmatch, hk, hn, he, hs, killNotifications,
            submittingAfter, onSuccessCalls, onFailCalls]
        | some f =>
          have hf := hok f hs (v.get "result")
          simp [killSubmit, killTry, hmatch, hk, hn, he, hs, hf, killNotifications,
            submittingAfter, onSuccessCalls, onFailCalls]
      · simp [killSubmit, killTry, hmatch, hk, hn, he, killNotifications,
          submittingAfter, onSuccessCalls, onFailCalls]
    · cases hf : env.onFail <;>
        simp [killSubmit, killTry, killCatch, hmatch, hk, hn, hf, killNotifications,
          submittingAfter, onSuccessCalls, onFailCalls]

/-- Witness of `killSubmit_outcomes`: `killMe` returns a result and the
`onSuccess` callback returns; one success notification, `onSuccess` called
with the result, `onFail` not called. -/
theorem killSubmit_outcomes_witness :
    JsVal.strictNeStr "0xabc"
      (sampleKillEnvWithCallbacks (.returns (.obj [("result", .str "0xtx")])) none).address
        = false ∧
    (∀ f, (sampleKillEnvWithCallbacks (.returns (.obj [("result", .str "0xtx")]))
        none).onSuccess = some f → ∀ r, f r = none) ∧
    killNotifications (killSubmit (sampleKillEnvWithCallbacks
        (.returns (.obj [("result", .str "0xtx")])) none) "0xabc").trace
      = [.toastSuccess (.str "Transaction sent")] ∧
    onSuccessCalls (killSubmit (sampleKillEnvWithCallbacks
        (.returns (.obj [("result", .str "0xtx")])) none) "0xabc").trace = [.str "0xtx"] ∧
    onFailCalls (killSubmit (sampleKillEnvWithCallbacks
        (.returns (.obj [("result", .str "0xtx")])) none) "0xabc").trace = [] ∧
    submittingAfter true (killSubmit (sampleKillEnvWithCallbacks
        (.returns (.obj [("result", .str "0xtx")])) none) "0xabc").trace = false := by
  have hmatch : JsVal.strictNeStr "0xabc"
      (sampleKillEnvWithCallbacks (.returns (.obj [("result", .str "0xtx")])) none).address
        = false := by decide
  have hok : ∀ f, (sampleKillEnvWithCallbacks (.returns (.obj [("result", .str "0xtx")]))
      none).onSuccess = some f → ∀ r, f r = none := by
    intro f hf r
    simp only [sampleKillEnvWithCallbacks, Option.some.injEq] at hf
    rw [← hf]
  have h := killSubmit_outcomes
    (sampleKillEnvWithCallbacks (.returns (.obj [("result", .str "0xtx")])) none) "0xabc"
    hmatch hok
  refine ⟨hmatch, hok, ?_, ?_, ?_, h.2.1 true⟩
  · have h3 := h.2.2
    simp [sampleKillEnvWithCallbacks, JsVal.isNullish, JsVal.get, JsVal.lookup,
      JsVal.truthy] at h3
    simpa [sampleKillEnvWithCallbacks] using h3.1
  · have h3 := h.2.2
    simp [sampleKillEnvWithCallbacks, JsVal.isNullish, JsVal.get, JsVal.lookup,
      JsVal.truthy] at h3
    simpa [sampleKillEnvWithCallbacks] using h3.2.1
  · have h3 := h.2.2
    simp [sampleKillEnvWithCallbacks, JsVal.isNullish, JsVal.get, JsVal.lookup,
      JsVal.truthy] at h3
    simpa [sampleKillEnvWithCallbacks] using h3.2.2

/-- C18: in `CurrentTask`, for period `None`, `canActivateInvite` falsy and
status Human, Verified or Newbie, with `p` published flips, `r` required and
`a` available: if `p < r` the task is the link `Create r-p required flips`;
otherwise, if `a - max(r,p) > 0`, it is
`Wait for validation or create a-max(r,p) optional flips`; otherwise
`Wait for validation`. Every count handed to the translation is strictly
positive, and when `p >= r` the optional count is `a - p`. -/
theorem currentTask_flips (epoch : JsVal) (identity : Identity)
    (validationState : Option ValidationState) (status : IdentityStatus)
    (hstate : identity.state = some status)
    (hstatus : status = .Human ∨ status = .Verified ∨ status = .Newbie)
    (hinvite : identity.canActivateInvite.truthy = false) :
    CurrentTask epoch (some .None) identity validationState =
      (if ((identity.flips.getD []).length : Int) < identity.requiredFlips then
        .link "/flips/list" ⟨"Create \x7b\x7bcount\x7d\x7d required flips",
          some (identity.requiredFlips - ((identity.flips.getD []).length : Nat))⟩
      else if identity.availableFlips
          - max identity.requiredFlips ((identity.flips.getD []).length : Nat) > 0 then
        .text ⟨"Wait for validation or create \x7b\x7bcount\x7d\x7d optional flips",
          some (identity.availableFlips
            - max identity.requiredFlips ((identity.flips.getD []).length : Nat))⟩
      else
        .text ⟨"Wait for validation", none⟩) ∧
    (∀ c, (CurrentTask epoch (some .None) identity validationState).count = some c → 0 < c) ∧
    (identity.requiredFlips ≤ ((identity.flips.getD []).length : Nat) →
      CurrentTask epoch (some .None) identity validationState =
        (if identity.availableFlips - ((identity.flips.getD []).length : Nat) > 0 then
          .text ⟨"Wait for validation or create \x7b\x7bcount\x7d\x7d optional flips",
            some (identity.availableFlips - ((identity.flips.getD []).length : Nat))⟩
        else .text ⟨"Wait for validation", none⟩)) := by
  have hmain := currentTask_none_validated epoch identity validationState status hstate
    hstatus hinvite
  refine ⟨?_, ?_, ?_⟩
  · rw [hmain]
    simp only [gt_iff_lt, sub_pos]
  · intro c hc
    rw [hmain] at hc
    split_ifs at hc with h1 h2
    · simp only [TaskNode.count, Option.some.injEq] at hc
      omega
    · simp only [TaskNode.count, Option.some.injEq] at hc
      omega
    · simp [TaskNode.count] at hc
  · intro hle
    rw [hmain]
    have h1 : ¬ identity.requiredFlips - ((identity.flips.getD []).length : Nat) > 0 := by
      omega
    rw [if_neg h1, max_eq_right hle]

/-- Witness of `currentTask_flips`: a Newbie with one published flip, three
required and five available has to create two required flips. -/
theorem currentTask_flips_witness :
    (⟨some .Newbie, some [.str "flip"], 3, 5, .bool false⟩ : Identity).state = some .Newbie ∧
    (IdentityStatus.Newbie = .Human ∨ IdentityStatus.Newbie = .Verified
      ∨ IdentityStatus.Newbie = .Newbie) ∧
    (⟨some .Newbie, some [.str "flip"], 3, 5, .bool false⟩ : Identity).canActivateInvite.truthy
      = false ∧
    CurrentTask (.num 7) (some .None) ⟨some .Newbie, some [.str "flip"], 3, 5, .bool false⟩ none
      = .link "/flips/list" ⟨"Create \x7b\x7bcount\x7d\x7d required flips", some 2⟩ := by
  have h := currentTask_flips (.num 7) ⟨some .Newbie, some [.str "flip"], 3, 5, .bool false⟩
    none .Newbie rfl (Or.inr (Or.inr rfl)) rfl
  refine ⟨rfl, Or.inr (Or.inr rfl), rfl, ?_⟩
  rw [h.1]
  decide

/-- C19: in `CurrentTask`, for period `ShortSession` or `LongSession`, the
`Validate` link is returned if and only if the identity state is one of
Candidate, Suspended, Zombie, Newbie, Verified, Human, a stored validation
state exists, its context epoch is strictly equal to the current epoch, and
it is not done; with state Undefined or Invite the result is always the
`did not activate invite` message; and for one of the six states, a stored
state for the current epoch that is done yields `Wait for validation end`. -/
theorem currentTask_session (epoch : JsVal) (period : EpochPeriod) (identity : Identity)
    (validationState : Option ValidationState)
    (hperiod : period = .ShortSession ∨ period = .LongSession) :
    (CurrentTask epoch (some period) identity validationState
        = .link "/validation" ⟨"Validate", none⟩ ↔
      ∃ status v, identity.state = some status ∧
        status ∈ [IdentityStatus.Candidate, .Suspended, .Zombie, .Newbie, .Verified, .Human] ∧
        validationState = some v ∧ v.epoch.strictEq epoch = true ∧ v.done.truthy = false) ∧
    ((identity.state = some .Undefined ∨ identity.state = some .Invite) →
      CurrentTask epoch (some period) identity validationState
        = .text ⟨"Can not start validation session because you did not activate invite",
            none⟩) ∧
    (∀ status v, identity.state = some status →
      status ∈ [IdentityStatus.Candidate, .Suspended, .Zombie, .Newbie, .Verified, .Human] →
      validationState = some v → v.epoch.strictEq epoch = true → v.done.truthy = true →
      CurrentTask epoch (some period) identity validationState
        = .text ⟨"Wait for validation end", none⟩) := by
  obtain ⟨state, flips, required, available, invite⟩ := identity
  refine ⟨?_, ?_, ?_⟩
  · cases state with
    | none => rcases hperiod with h | h <;> subst h <;> simp [CurrentTask]
    | some status =>
      cases validationState with
      | none =>
        rcases hperiod with h | h <;> subst h <;> cases status <;> simp [CurrentTask]
      | some v =>
        cases h1 : v.epoch.strictEq epoch <;> cases h2 : v.done.truthy <;>
          rcases hperiod with h | h <;> subst h <;> cases status <;>
          simp [CurrentTask, h1, h2]
  · intro hs
    rcases hs with hs | hs <;> simp only [] at hs <;> subst hs <;>
      rcases hperiod with h | h <;> subst h <;> simp [CurrentTask]
  · intro status v hs hmem hv h1 h2
    simp only [] at hs
    subst hs hv
    rcases hperiod with h | h <;> subst h <;> cases status <;>
      simp_all [CurrentTask]

/-- Witness of `currentTask_session`: a Candidate in the short session whose
stored validation state is of the current epoch and not done gets the
`Validate` link. -/
theorem currentTask_session_witness :
    (EpochPeriod.ShortSession = .ShortSession ∨ EpochPeriod.ShortSession = .LongSession) ∧
    CurrentTask (.num 7) (some .ShortSession) ⟨some .Candidate, none, 0, 0, .bool false⟩
        (some ⟨.bool false, .num 7⟩)
      = .link "/validation" ⟨"Validate", none⟩ :=
  ⟨Or.inl rfl,
    (currentTask_session (.num 7) .ShortSession ⟨some .Candidate, none, 0, 0, .bool false⟩
      (some ⟨.bool false, .num 7⟩) (Or.inl rfl)).1.mpr
      ⟨.Candidate, ⟨.bool false, .num 7⟩, rfl, by decide, rfl, by decide, rfl⟩⟩

/-- C20: the label of `NodeStatus` is a function of the truthiness of
`loading`, `offline` and `syncing` with fixed precedence: `Getting node
status...` when loading; otherwise `Offline` when offline; otherwise
`Synchronizing` when syncing and `Synchronized` when not. It is
`Synchronized` if and only if all three are falsy. -/
theorem nodeStatus_label (loading offline syncing : JsVal) :
    (NodeStatus loading offline syncing).text =
      (if loading.truthy = true then "Getting node status..."
       else if offline.truthy = true then "Offline"
       else if syncing.truthy = true then "Synchronizing"
       else "Synchronized") ∧
    ((NodeStatus loading offline syncing).text = "Synchronized" ↔
      loading.truthy = false ∧ offline.truthy = false ∧ syncing.truthy = false) := by
  cases hl : loading.truthy <;> cases ho : offline.truthy <;> cases hs : syncing.truthy <;>
    simp [NodeStatus, hl, ho, hs]

/-- C21: in `Version`, for every auto-update state, the button
`Update Client Version` is shown if and only if `canUpdateClient` is truthy;
the button `Update Node Version` is shown if and only if `canUpdateClient` is
falsy, `canUpdateNode` is truthy and `nodeProgress` is falsy or has a
`percentage` strictly equal to 100; the two buttons are never both shown. -/
theorem version_buttons_exclusive (autoUpdate : AutoUpdateState) :
    ((Version autoUpdate).clientButton.map (fun b => b.text)
      = if autoUpdate.canUpdateClient.truthy = true then some "Update Client Version"
        else none) ∧
    ((Version autoUpdate).nodeButton.map (fun b => b.text)
      = if autoUpdate.canUpdateClient.truthy = false ∧ autoUpdate.canUpdateNode.truthy = true ∧
            (autoUpdate.nodeProgress.truthy = false ∨
              (autoUpdate.nodeProgress.get "percentage").strictEq (.num 100) = true)
        then some "Update Node Version" else none) ∧
    ((Version autoUpdate).clientButton.isSome = true ↔
      autoUpdate.canUpdateClient.truthy = true) ∧
    ((Version autoUpdate).nodeButton.isSome = true ↔
      autoUpdate.canUpdateClient.truthy = false ∧ autoUpdate.canUpdateNode.truthy = true ∧
        (autoUpdate.nodeProgress.truthy = false ∨
          (autoUpdate.nodeProgress.get "percentage").strictEq (.num 100) = true)) ∧
    ((Version autoUpdate).clientButton.isSome && (Version autoUpdate).nodeButton.isSome)
      = false := by
  cases hc : autoUpdate.canUpdateClient.truthy <;>
    cases hn : autoUpdate.canUpdateNode.truthy <;>
    cases hp : autoUpdate.nodeProgress.truthy <;>
    cases hq : (autoUpdate.nodeProgress.get "percentage").strictEq (.num 100) <;>
    simp [Version, hc, hn, hp, hq]

end Idena
